import Mathlib

/-!
Verification of the zod-v3-to-v4 single-file migration CLI (src/index.ts).

The embedding models absolute POSIX paths as lists of components stored
innermost first (`"/proj/a.ts"` is `["a.ts", "proj"]`, `[]` is the root
`"/"`), so `path.dirname` is `List.tail` (with `dirname "/" = "/"` matching
`tail [] = []`), `path.join dir name` is `name :: dir`, and `path.resolve`
is the identity (inputs are taken already resolved).  The filesystem is a finite map from paths to file
contents plus a set of directories; `fs.existsSync` is true for files and
directories alike, as in Node.  The external collaborators are parameters:
`autoLoad` gives the files a ts-morph `Project` would auto-load for a given
tsconfig, and `migrate` is the `migrateZodV3ToV4` transform acting on the
file's content, returning either the rewritten content or the raised
exception's message.  Process exit and the console are modeled by a
`RunResult` carrying the exit kind, the final filesystem, and the trace of
filesystem/engine events.
-/

namespace ZodMigrate

/-- An absolute POSIX path, as its list of components, innermost first
([] is the root). -/
abbrev AbsPath := List String

/-- The configuration file name searched for by `findClosestTsConfig`. -/
def tsconfigName : String := "tsconfig.json"

/-- The `path.dirname` of an absolute path: drop the innermost component; the
root is its own parent. -/
def dirname (p : AbsPath) : AbsPath := p.tail

/-- The `path.basename` of an absolute path: the innermost component ("" for
the root). -/
def basename (p : AbsPath) : String := (p.head?).getD ("")

/-- Node `path.extname` applied to a basename: the substring from the last
dot, unless there is no dot or the only dot is the leading character
(dotfile), in which case "". -/
def extname (s : String) : String :=
  match (s.data.enum.filter (fun ic => ic.2 == '.')).getLast? with
  | none => ""
  | some (0, _) => ""
  | some (i, _) => String.mk (s.data.drop i)

/-- The filesystem: regular files with contents, plus directories. -/
structure FS where
  files : List (AbsPath × String)
  dirs : List AbsPath
deriving DecidableEq

/-- Look up a file's content (first match). -/
def lookupFile : List (AbsPath × String) → AbsPath → Option String
  | [], _ => none
  | pc :: rest, p => if pc.1 = p then some pc.2 else lookupFile rest p

/-- Read a regular file's content, if a file is at `p`. -/
def FS.readFile (fs : FS) (p : AbsPath) : Option String := lookupFile fs.files p

/-- True when a regular file is at `p`. -/
def FS.isFile (fs : FS) (p : AbsPath) : Bool := (fs.readFile p).isSome

/-- Node `fs.existsSync`: true when a file OR a directory is at `p`. -/
def FS.existsSync (fs : FS) (p : AbsPath) : Bool :=
  fs.isFile p || decide (p ∈ fs.dirs)

/-- Overwrite the file at `p` with content `c` (append it if absent). -/
def FS.write (fs : FS) (p : AbsPath) (c : String) : FS :=
  if fs.isFile p then
    ⟨fs.files.map (fun pc => if pc.1 = p then (pc.1, c) else pc), fs.dirs⟩
  else
    ⟨fs.files ++ [(p, c)], fs.dirs⟩

/-- Message carried by the exception of a failed target-file read. -/
def enoentMessage : String := "ENOENT: could not read the target file"

/-- Result of `validateFilePath`: the success flag and reason object. -/
structure ValidationResult where
  success : Bool
  reason : Option String
deriving DecidableEq

/-- The four recognized source extensions. -/
def validExtensions : List String := [".ts", ".tsx", ".js", ".jsx"]

/-- Reason string for a rejected extension. -/
def invalidExtensionReason : String :=
  "Please enter a valid TypeScript/JavaScript file path (.ts, .tsx, .js, .jsx)."

/-- Reason string for a missing path. -/
def fileNotFoundReason : String := "File not found."

/-- The function `validateFilePath` from src/index.ts: reject unrecognized extensions,
then reject paths for which `fs.existsSync` is false, else succeed. -/
def validateFilePath (fs : FS) (filePath : AbsPath) : ValidationResult :=
  if validExtensions.contains (extname (basename filePath)) = false then
    ⟨false, some invalidExtensionReason⟩
  else if fs.existsSync filePath = false then
    ⟨false, some fileNotFoundReason⟩
  else
    ⟨true, none⟩

/-- The function `findClosestTsConfig` from src/index.ts: starting at `startDir`, return
the joined tsconfig path if `existsSync` holds, else move to the parent
directory, stopping with `none` when the parent equals the current
directory (the root, i.e. `[]`). -/
def findClosestTsConfig (fs : FS) (startDir : AbsPath) : Option AbsPath :=
  if fs.existsSync (tsconfigName :: startDir) then some (tsconfigName :: startDir)
  else
    match startDir with
    | [] => none
    | _ :: parentDir => findClosestTsConfig fs parentDir

/-- The literal while-loop of `findClosestTsConfig`, with explicit fuel:
`none` means the loop has not finished within `fuel` iterations, `some r`
that it returned `r`.  The stopping test is the source's
`parentDir === currentDir`. -/
def findClosestTsConfigLoop (fs : FS) (fuel : Nat) (currentDir : AbsPath) :
    Option (Option AbsPath) :=
  match fuel with
  | 0 => none
  | Nat.succ fuel =>
    if fs.existsSync (tsconfigName :: currentDir) then
      some (some (tsconfigName :: currentDir))
    else if dirname currentDir = currentDir then
      some none
    else
      findClosestTsConfigLoop fs fuel (dirname currentDir)

/-- The ancestor chain of a directory: itself, its parent, …, the root. -/
def ancestors : AbsPath → List AbsPath
  | [] => [[]]
  | x :: rest => (x :: rest) :: ancestors rest

/-- A directory of the ancestor chain directly contains a tsconfig. -/
def hasTsConfig (fs : FS) (d : AbsPath) : Bool := fs.existsSync (tsconfigName :: d)

/-- A ts-morph workspace: the loaded source files (path and in-memory
content). -/
structure Project where
  sourceFiles : List (AbsPath × String)
deriving DecidableEq

/-- Remove the first occurrence of a source file from a list. -/
def eraseFile : List (AbsPath × String) → (AbsPath × String) → List (AbsPath × String)
  | [], _ => []
  | x :: rest, f => if x = f then rest else x :: eraseFile rest f

/-- Removal of one file: `project.removeSourceFile(file)`. -/
def Project.removeSourceFile (p : Project) (file : AbsPath × String) : Project :=
  ⟨eraseFile p.sourceFiles file⟩

/-- The purge loop `project.getSourceFiles().forEach(file => project.removeSourceFile(file))`:
fold removal over the snapshot of the current source files. -/
def Project.purgeAutoLoaded (p : Project) : Project :=
  p.sourceFiles.foldl Project.removeSourceFile p

/-- Addition of a file, `project.addSourceFileAtPath(path)`: reads the file and appends it,
returning the added source file's content as well; `none` models the
exception thrown when the path cannot be read as a file. -/
def Project.addSourceFileAtPath (p : Project) (fs : FS) (path : AbsPath) :
    Option (Project × String) :=
  (fs.readFile path).map (fun content => (⟨p.sourceFiles ++ [(path, content)]⟩, content))

/-- Construction `new Project` with the tsconfig path and skipFileDependencyResolution:
the workspace starts out holding whatever files the configuration
auto-loads. -/
def newProject (fs : FS) (autoLoaded : List AbsPath) : Project :=
  ⟨autoLoaded.map (fun p => (p, (fs.readFile p).getD ("")))⟩

/-- The Scoped Project Builder (src/index.ts lines 59-70): construct the
project from the tsconfig, purge every auto-loaded file, then add the
target file. -/
def buildScopedProject (fs : FS) (autoLoaded : List AbsPath) (target : AbsPath) :
    Option (Project × String) :=
  ((newProject fs autoLoaded).purgeAutoLoaded).addSourceFileAtPath fs target

/-- In-place mutation of one source file's content. -/
def Project.setContent (p : Project) (path : AbsPath) (c : String) : Project :=
  ⟨p.sourceFiles.map (fun pc => if pc.1 = path then (pc.1, c) else pc)⟩

/-- Persistence `project.save()`: write every source file of the workspace to disk. -/
def Project.save (p : Project) (fs : FS) : FS :=
  p.sourceFiles.foldl (fun f pc => f.write pc.1 pc.2) fs

/-- Observable events of one run, in order. -/
inductive Event
  | configLookup
  | fileLoad (p : AbsPath)
  | migrateCall
  | diskWrite (p : AbsPath)
deriving DecidableEq

/-- How the process ended: a `process.exit(code)` / clean end, or an
exception that escaped every handler. -/
inductive ExitKind
  | exited (code : Nat)
  | unhandledFault (msg : String)
deriving DecidableEq

/-- Outcome of one invocation: exit kind, final filesystem, event trace. -/
structure RunResult where
  exit : ExitKind
  fs : FS
  events : List Event
deriving DecidableEq

/-- The function `runMigration` from src/index.ts: locate the tsconfig (exit 1 if none),
build the scoped project (an unreadable target makes `addSourceFileAtPath`
throw, uncaught), call the transform inside try/catch (exit 1 on raise),
else save the project and exit 0. -/
def runMigration (fs : FS) (autoLoad : AbsPath → List AbsPath)
    (migrate : String → Except String String) (filePath : AbsPath) : RunResult :=
  let absoluteFilePath := filePath
  let fileDir := dirname absoluteFilePath
  match findClosestTsConfig fs fileDir with
  | none => ⟨ExitKind.exited 1, fs, [Event.configLookup]⟩
  | some tsConfigFilePath =>
    let autoLoaded := autoLoad tsConfigFilePath
    let events := Event.configLookup :: autoLoaded.map Event.fileLoad
    match buildScopedProject fs autoLoaded absoluteFilePath with
    | none => ⟨ExitKind.unhandledFault enoentMessage, fs, events⟩
    | some (project, content) =>
      let events := events ++ [Event.fileLoad absoluteFilePath, Event.migrateCall]
      match migrate content with
      | Except.error _ => ⟨ExitKind.exited 1, fs, events⟩
      | Except.ok newContent =>
        let saved := (project.setContent absoluteFilePath newContent).save fs
        ⟨ExitKind.exited 0, saved,
          events ++ (project.setContent absoluteFilePath newContent).sourceFiles.map
            (fun pc => Event.diskWrite pc.1)⟩

/-- The whole script: take the first CLI argument (exit 1 when absent),
validate it (exit 1 on failure), then run the migration. -/
def run (args : List AbsPath) (fs : FS) (autoLoad : AbsPath → List AbsPath)
    (migrate : String → Except String String) : RunResult :=
  match args.head? with
  | none => ⟨ExitKind.exited 1, fs, []⟩
  | some filePath =>
    if (validateFilePath fs filePath).success then
      runMigration fs autoLoad migrate filePath
    else
      ⟨ExitKind.exited 1, fs, []⟩

/-! ### Helper lemmas -/

/-- Erasing a member produces a permutation witness: the list is a
permutation of the erased member consed onto the remainder. -/
theorem perm_cons_eraseFile {l : List (AbsPath × String)} {a : AbsPath × String}
    (h : a ∈ l) : l.Perm (a :: eraseFile l a) := by
  induction l with
  | nil => cases h
  | cons x rest ih =>
    by_cases hx : x = a
    · subst hx
      simp [eraseFile]
    · have hmem : a ∈ rest := by
        rcases List.mem_cons.mp h with h1 | h1
        · exact absurd h1.symm hx
        · exact h1
      have step : eraseFile (x :: rest) a = x :: eraseFile rest a := by
        simp [eraseFile, hx]
      rw [step]
      exact ((ih hmem).cons x).trans (List.Perm.swap a x (eraseFile rest a))

/-- Folding erasure of every element of a permutation of the accumulator
empties the accumulator. -/
theorem foldl_eraseFile_self :
    ∀ (pending acc : List (AbsPath × String)), pending.Perm acc →
      List.foldl eraseFile acc pending = [] := by
  intro pending
  induction pending with
  | nil =>
    intro acc h
    simpa using (List.nil_perm.mp h)
  | cons a pending ih =>
    intro acc h
    have ha : a ∈ acc := h.subset (List.mem_cons_self a pending)
    have h2 : pending.Perm (eraseFile acc a) :=
      (h.trans (perm_cons_eraseFile ha)).cons_inv
    simpa [List.foldl] using ih (eraseFile acc a) h2

/-- Folding `Project.removeSourceFile` acts on the underlying list as
folding `eraseFile`. -/
theorem foldl_removeSourceFile (l : List (AbsPath × String)) (q : Project) :
    (List.foldl Project.removeSourceFile q l).sourceFiles =
      List.foldl eraseFile q.sourceFiles l := by
  induction l generalizing q with
  | nil => rfl
  | cons a l ih => simp [List.foldl, Project.removeSourceFile, ih]

/-- Purging the auto-loaded files leaves the workspace empty. -/
theorem purgeAutoLoaded_sourceFiles (p : Project) :
    (p.purgeAutoLoaded).sourceFiles = [] := by
  unfold Project.purgeAutoLoaded
  rw [foldl_removeSourceFile]
  exact foldl_eraseFile_self p.sourceFiles p.sourceFiles (List.Perm.refl _)

/-- When the Scoped Project Builder succeeds, the workspace holds exactly
the target file with its on-disk content. -/
theorem buildScopedProject_sourceFiles {fs : FS} {autoLoaded : List AbsPath}
    {target : AbsPath} {pr : Project} {content : String}
    (h : buildScopedProject fs autoLoaded target = some (pr, content)) :
    pr.sourceFiles = [(target, content)] ∧ fs.readFile target = some content := by
  unfold buildScopedProject Project.addSourceFileAtPath at h
  cases hr : fs.readFile target with
  | none => rw [hr] at h; simp at h
  | some c0 =>
    rw [hr] at h
    simp only [Option.map_some', Option.some.injEq, Prod.mk.injEq] at h
    obtain ⟨h1, h2⟩ := h
    subst h2
    constructor
    · rw [← h1]
      simp [purgeAutoLoaded_sourceFiles]
    · rfl

/-! ### Claim theorems -/

/-- C1: after the Scoped Project Builder constructs the workspace (project
created from the located tsconfig, auto-loaded files purged, target file
added), the workspace contains exactly one source file — the target file —
for every configuration, regardless of how many files the configuration
auto-loads. -/
theorem scoped_workspace_single_file (fs : FS) (autoLoaded : List AbsPath)
    (target : AbsPath) (pr : Project) (content : String)
    (h : buildScopedProject fs autoLoaded target = some (pr, content)) :
    pr.sourceFiles.map Prod.fst = [target] ∧ pr.sourceFiles.length = 1 := by
  obtain ⟨h1, _⟩ := buildScopedProject_sourceFiles h
  rw [h1]
  exact ⟨rfl, rfl⟩

/-- Witness for C1 at a concrete configuration auto-loading two files. -/
theorem scoped_workspace_single_file_witness :
    (⟨[(["a.ts"], "x"), (["b.ts"], "y"), (["c.ts"], "z")], []⟩ : FS) =
        ⟨[(["a.ts"], "x"), (["b.ts"], "y"), (["c.ts"], "z")], []⟩ ∧
      (Project.mk [(["a.ts"], "x")]).sourceFiles.map Prod.fst = [["a.ts"]] :=
  ⟨rfl,
    (scoped_workspace_single_file ⟨[(["a.ts"], "x"), (["b.ts"], "y"), (["c.ts"], "z")], []⟩
      [["b.ts"], ["c.ts"]] ["a.ts"] ⟨[(["a.ts"], "x")]⟩ "x" (by decide)).1⟩

/-- The locator returns the tsconfig joined onto the nearest ancestor
directory that has one (the head of the filtered ancestor chain). -/
theorem findClosestTsConfig_eq_first_ancestor (fs : FS) :
    ∀ s : AbsPath,
      findClosestTsConfig fs s =
        (((ancestors s).filter (hasTsConfig fs)).head?).map (fun d => tsconfigName :: d) := by
  intro s
  induction s with
  | nil =>
    cases h : fs.existsSync (tsconfigName :: ([] : AbsPath)) with
    | false => simp [findClosestTsConfig, ancestors, hasTsConfig, h]
    | true => simp [findClosestTsConfig, ancestors, hasTsConfig, h]
  | cons x rest ih =>
    cases h : fs.existsSync (tsconfigName :: x :: rest) with
    | false => simp [findClosestTsConfig, ancestors, hasTsConfig, h, ih]
    | true => simp [findClosestTsConfig, ancestors, hasTsConfig, h]

/-- C3: when the ancestor chain of the starting directory contains exactly
one directory holding the configuration file, the Configuration Locator
returns that configuration file's path, at any depth; when the chain
contains none, it returns "not found" (`none`). -/
theorem config_locator_correct (fs : FS) (s d : AbsPath) :
    ((ancestors s).filter (hasTsConfig fs) = [d] →
      findClosestTsConfig fs s = some (tsconfigName :: d)) ∧
    ((ancestors s).filter (hasTsConfig fs) = [] →
      findClosestTsConfig fs s = none) := by
  constructor
  · intro h
    rw [findClosestTsConfig_eq_first_ancestor fs s, h]
    rfl
  · intro h
    rw [findClosestTsConfig_eq_first_ancestor fs s, h]
    rfl

/-- Witness for C3: the single tsconfig sits two levels above the starting
directory /a/b/c (namely in /a), and a chain with no tsconfig at all. -/
theorem config_locator_correct_witness :
    ((ancestors ["c", "b", "a"]).filter
        (hasTsConfig ⟨[(["tsconfig.json", "a"], "x")], []⟩) = [["a"]] ∧
      findClosestTsConfig ⟨[(["tsconfig.json", "a"], "x")], []⟩ ["c", "b", "a"] =
        some (tsconfigName :: ["a"])) ∧
    ((ancestors ["b", "a"]).filter (hasTsConfig ⟨[], []⟩) = [] ∧
      findClosestTsConfig ⟨[], []⟩ ["b", "a"] = none) :=
  ⟨⟨by decide,
    (config_locator_correct ⟨[(["tsconfig.json", "a"], "x")], []⟩ ["c", "b", "a"] ["a"]).1
      (by decide)⟩,
   ⟨by decide,
    (config_locator_correct ⟨[], []⟩ ["b", "a"] ["a"]).2 (by decide)⟩⟩

/-- C4: the upward walk of the Configuration Locator terminates on every
starting directory: the literal while-loop, run with fuel one more than the
directory's depth, finishes (returns `some`) and agrees with the recursive
function.  Directory ancestry strictly shrinks until the root, so the
bound is the depth itself. -/
theorem config_locator_terminates (fs : FS) (s : AbsPath) :
    findClosestTsConfigLoop fs (s.length + 1) s = some (findClosestTsConfig fs s) := by
  induction s with
  | nil =>
    cases h : fs.existsSync (tsconfigName :: ([] : AbsPath)) with
    | false => simp [findClosestTsConfigLoop, findClosestTsConfig, dirname, h]
    | true => simp [findClosestTsConfigLoop, findClosestTsConfig, h]
  | cons x rest ih =>
    cases h : fs.existsSync (tsconfigName :: x :: rest) with
    | false =>
      have hne : dirname (x :: rest) ≠ x :: rest := by
        intro heq
        have hlen := congrArg List.length heq
        simp [dirname] at hlen
      calc findClosestTsConfigLoop fs ((x :: rest).length + 1) (x :: rest)
          = findClosestTsConfigLoop fs (rest.length + 1) rest := by
            simp only [findClosestTsConfigLoop, List.length_cons]
            rw [if_neg (by simp [h]), if_neg hne]
            rfl
        _ = some (findClosestTsConfig fs rest) := ih
        _ = some (findClosestTsConfig fs (x :: rest)) := by
            simp [findClosestTsConfig, h]
    | true => simp [findClosestTsConfigLoop, findClosestTsConfig, h]

/-- C5 counterexample: a directory named "/foo.ts".  No file exists at the
path, yet the Path Validator succeeds instead of failing with the
FileNotFound reason, because `fs.existsSync` is also true for directories.
This refutes "fails with FileNotFound when no file exists at that path,
and otherwise succeeds". -/
theorem validator_not_found_counterexample :
    (FS.isFile ⟨[], [["foo.ts"]]⟩ ["foo.ts"]) = false ∧
    validateFilePath ⟨[], [["foo.ts"]]⟩ ["foo.ts"] ≠ ⟨false, some fileNotFoundReason⟩ ∧
    (validateFilePath ⟨[], [["foo.ts"]]⟩ ["foo.ts"]).success = true := by
  decide

/-- C5 amended: the Path Validator fails with the InvalidExtension reason
exactly when the extension is not one of the four recognized extensions,
fails with the FileNotFound reason exactly when the extension is
recognized but nothing (file or directory) exists at the path, and
succeeds exactly when the extension is recognized and something exists at
the path; it is a pure function of the path and filesystem. -/
theorem validateFilePath_trichotomy (fs : FS) (p : AbsPath) :
    (validateFilePath fs p = ⟨false, some invalidExtensionReason⟩ ↔
      validExtensions.contains (extname (basename p)) = false) ∧
    (validateFilePath fs p = ⟨false, some fileNotFoundReason⟩ ↔
      validExtensions.contains (extname (basename p)) = true ∧ fs.existsSync p = false) ∧
    ((validateFilePath fs p).success = true ↔
      validExtensions.contains (extname (basename p)) = true ∧ fs.existsSync p = true) := by
  have hne : invalidExtensionReason ≠ fileNotFoundReason := by decide
  unfold validateFilePath
  cases hext : validExtensions.contains (extname (basename p)) with
  | false => simp [hext, hne]
  | true =>
    cases hex : fs.existsSync p with
    | false => simp [hext, hex, hne, Ne.symm hne]
    | true => simp [hext, hex]

/-- Witness for C5 (amended) on a present file, a missing file and a bad
extension. -/
theorem validateFilePath_trichotomy_witness :
    (validateFilePath ⟨[(["a.ts"], "c")], []⟩ ["a.ts"]).success = true ∧
    validateFilePath ⟨[], []⟩ ["a.ts"] = ⟨false, some fileNotFoundReason⟩ ∧
    validateFilePath ⟨[], []⟩ ["a.md"] = ⟨false, some invalidExtensionReason⟩ :=
  ⟨(validateFilePath_trichotomy ⟨[(["a.ts"], "c")], []⟩ ["a.ts"]).2.2.mpr (by decide),
   (validateFilePath_trichotomy ⟨[], []⟩ ["a.ts"]).2.1.mpr (by decide),
   (validateFilePath_trichotomy ⟨[], []⟩ ["a.md"]).1.mpr (by decide)⟩

/-- C6 counterexample: the Path Validator succeeds on "/foo.ts" although
the path denotes a directory, not an existing file, refuting "whenever the
Path Validator succeeds, the path denotes an existing file". -/
theorem validator_success_directory_counterexample :
    (validateFilePath ⟨[], [["foo.ts"]]⟩ ["foo.ts"]).success = true ∧
    (FS.isFile ⟨[], [["foo.ts"]]⟩ ["foo.ts"]) = false ∧
    ["foo.ts"] ∈ (FS.dirs ⟨[], [["foo.ts"]]⟩) := by
  decide

/-- C6 amended: whenever the Path Validator succeeds, something (a file or
a directory) exists at the path and the extension is one of the recognized
source extensions; file-ness is not checked. -/
theorem validator_success_exists (fs : FS) (p : AbsPath)
    (h : (validateFilePath fs p).success = true) :
    fs.existsSync p = true ∧ validExtensions.contains (extname (basename p)) = true := by
  cases hext : validExtensions.contains (extname (basename p)) with
  | false =>
    unfold validateFilePath at h
    rw [hext] at h
    simp at h
  | true =>
    cases hex : fs.existsSync p with
    | false =>
      unfold validateFilePath at h
      rw [hext, hex] at h
      simp at h
    | true => exact ⟨rfl, rfl⟩

/-- Witness for C6 (amended) on a real file. -/
theorem validator_success_exists_witness :
    FS.existsSync ⟨[(["a.ts"], "c")], []⟩ ["a.ts"] = true ∧
    validExtensions.contains (extname (basename ["a.ts"])) = true :=
  validator_success_exists ⟨[(["a.ts"], "c")], []⟩ ["a.ts"] (by decide)

/-- C10: for a path that both lacks a recognized extension and does not
exist, the Path Validator reports InvalidExtension, not FileNotFound: the
extension check runs first, on the path string alone, independent of the
filesystem. -/
theorem extension_checked_before_existence (fs : FS) (p : AbsPath)
    (hext : validExtensions.contains (extname (basename p)) = false)
    (_hmiss : fs.existsSync p = false) :
    validateFilePath fs p = ⟨false, some invalidExtensionReason⟩ ∧
    validateFilePath fs p ≠ ⟨false, some fileNotFoundReason⟩ ∧
    (∀ fs2 : FS, validateFilePath fs2 p = validateFilePath fs p) := by
  have hne : invalidExtensionReason ≠ fileNotFoundReason := by decide
  have h1 : validateFilePath fs p = ⟨false, some invalidExtensionReason⟩ := by
    unfold validateFilePath
    rw [if_pos hext]
  refine ⟨h1, ?_, ?_⟩
  · rw [h1]
    simp [hne]
  · intro fs2
    rw [h1]
    unfold validateFilePath
    rw [if_pos hext]

/-- Witness for C10: a missing path with a non-source extension. -/
theorem extension_checked_before_existence_witness :
    validateFilePath ⟨[], []⟩ ["notes.md"] = ⟨false, some invalidExtensionReason⟩ :=
  (extension_checked_before_existence ⟨[], []⟩ ["notes.md"] (by decide) (by decide)).1

/-! ### Branch lemmas for the pipeline -/

/-- Running with no CLI argument exits 1 immediately. -/
theorem run_nil (fs : FS) (autoLoad : AbsPath → List AbsPath)
    (migrate : String → Except String String) :
    run [] fs autoLoad migrate = ⟨ExitKind.exited 1, fs, []⟩ := rfl

/-- Running with a first argument validates it and branches. -/
theorem run_cons (p : AbsPath) (args : List AbsPath) (fs : FS)
    (autoLoad : AbsPath → List AbsPath) (migrate : String → Except String String) :
    run (p :: args) fs autoLoad migrate =
      if (validateFilePath fs p).success then runMigration fs autoLoad migrate p
      else ⟨ExitKind.exited 1, fs, []⟩ := rfl

/-- When no tsconfig is found, the migration exits 1 touching nothing. -/
theorem runMigration_config_none {fs : FS} {autoLoad : AbsPath → List AbsPath}
    {migrate : String → Except String String} {p : AbsPath}
    (hfind : findClosestTsConfig fs (dirname p) = none) :
    runMigration fs autoLoad migrate p = ⟨ExitKind.exited 1, fs, [Event.configLookup]⟩ := by
  simp only [runMigration, hfind]

/-- When the target file cannot be read, `addSourceFileAtPath` throws and
nothing catches it. -/
theorem runMigration_build_none {fs : FS} {autoLoad : AbsPath → List AbsPath}
    {migrate : String → Except String String} {p cfg : AbsPath}
    (hfind : findClosestTsConfig fs (dirname p) = some cfg)
    (hbuild : buildScopedProject fs (autoLoad cfg) p = none) :
    runMigration fs autoLoad migrate p =
      ⟨ExitKind.unhandledFault enoentMessage, fs,
        Event.configLookup :: (autoLoad cfg).map Event.fileLoad⟩ := by
  simp only [runMigration, hfind, hbuild]

/-- When the transform raises, the catch block exits 1 and nothing is
saved. -/
theorem runMigration_migrate_error {fs : FS} {autoLoad : AbsPath → List AbsPath}
    {migrate : String → Except String String} {p cfg : AbsPath} {pr : Project}
    {c msg : String}
    (hfind : findClosestTsConfig fs (dirname p) = some cfg)
    (hbuild : buildScopedProject fs (autoLoad cfg) p = some (pr, c))
    (hmig : migrate c = Except.error msg) :
    runMigration fs autoLoad migrate p =
      ⟨ExitKind.exited 1, fs,
        (Event.configLookup :: (autoLoad cfg).map Event.fileLoad) ++
          [Event.fileLoad p, Event.migrateCall]⟩ := by
  simp only [runMigration, hfind, hbuild, hmig]

/-- When the transform succeeds, the project is saved and the process
exits 0. -/
theorem runMigration_migrate_ok {fs : FS} {autoLoad : AbsPath → List AbsPath}
    {migrate : String → Except String String} {p cfg : AbsPath} {pr : Project}
    {c nc : String}
    (hfind : findClosestTsConfig fs (dirname p) = some cfg)
    (hbuild : buildScopedProject fs (autoLoad cfg) p = some (pr, c))
    (hmig : migrate c = Except.ok nc) :
    runMigration fs autoLoad migrate p =
      ⟨ExitKind.exited 0, (pr.setContent p nc).save fs,
        ((Event.configLookup :: (autoLoad cfg).map Event.fileLoad) ++
          [Event.fileLoad p, Event.migrateCall]) ++
          (pr.setContent p nc).sourceFiles.map (fun pc => Event.diskWrite pc.1)⟩ := by
  simp only [runMigration, hfind, hbuild, hmig]

/-- C2: whenever the transform raises (here: for every content), any run
that actually invoked the transform exits 1, never reaches persistence
(no disk-write event) and leaves the filesystem — in particular the target
file's bytes — exactly as before. -/
theorem migration_failure_preserves_target (args : List AbsPath) (fs : FS)
    (autoLoad : AbsPath → List AbsPath) (migrate : String → Except String String)
    (hraise : ∀ s, ∃ msg, migrate s = Except.error msg)
    (hcall : Event.migrateCall ∈ (run args fs autoLoad migrate).events) :
    (run args fs autoLoad migrate).exit = ExitKind.exited 1 ∧
    (run args fs autoLoad migrate).fs = fs ∧
    ∀ q, Event.diskWrite q ∉ (run args fs autoLoad migrate).events := by
  cases args with
  | nil => simp [run_nil] at hcall
  | cons p rest =>
    cases hv : (validateFilePath fs p).success with
    | false =>
      rw [run_cons, if_neg (by simp [hv])] at hcall
      simp at hcall
    | true =>
      have hrun : run (p :: rest) fs autoLoad migrate = runMigration fs autoLoad migrate p := by
        rw [run_cons, if_pos hv]
      rw [hrun] at hcall ⊢
      cases hfind : findClosestTsConfig fs (dirname p) with
      | none =>
        rw [runMigration_config_none hfind] at hcall
        simp at hcall
      | some cfg =>
        cases hbuild : buildScopedProject fs (autoLoad cfg) p with
        | none =>
          rw [runMigration_build_none hfind hbuild] at hcall
          simp at hcall
        | some prc =>
          obtain ⟨pr, c⟩ := prc
          obtain ⟨msg, hmig⟩ := hraise c
          rw [runMigration_migrate_error hfind hbuild hmig]
          refine ⟨rfl, rfl, ?_⟩
          intro q
          simp

/-- Witness for C2: a raising transform on a real file beside a tsconfig. -/
theorem migration_failure_preserves_target_witness :
    (run [["a.ts"]] ⟨[(["a.ts"], "old"), (["tsconfig.json"], "x")], []⟩
        (fun _ => []) (fun _ => Except.error ("boom"))).exit = ExitKind.exited 1 ∧
    (run [["a.ts"]] ⟨[(["a.ts"], "old"), (["tsconfig.json"], "x")], []⟩
        (fun _ => []) (fun _ => Except.error ("boom"))).fs =
      ⟨[(["a.ts"], "old"), (["tsconfig.json"], "x")], []⟩ :=
  ⟨(migration_failure_preserves_target [["a.ts"]]
      ⟨[(["a.ts"], "old"), (["tsconfig.json"], "x")], []⟩ (fun _ => [])
      (fun _ => Except.error ("boom")) (fun s => ⟨"boom", rfl⟩) (by decide)).1,
   (migration_failure_preserves_target [["a.ts"]]
      ⟨[(["a.ts"], "old"), (["tsconfig.json"], "x")], []⟩ (fun _ => [])
      (fun _ => Except.error ("boom")) (fun s => ⟨"boom", rfl⟩) (by decide)).2.1⟩

/-- C8: on a first argument with an unrecognized extension the run exits 1
with an empty event trace: configuration lookup never happens, no file is
loaded, nothing is written and the filesystem is untouched. -/
theorem invalid_extension_short_circuits (args : List AbsPath) (fs : FS)
    (autoLoad : AbsPath → List AbsPath) (migrate : String → Except String String)
    (p : AbsPath) (harg : args.head? = some p)
    (hext : validExtensions.contains (extname (basename p)) = false) :
    run args fs autoLoad migrate = ⟨ExitKind.exited 1, fs, []⟩ ∧
    Event.configLookup ∉ (run args fs autoLoad migrate).events ∧
    (∀ q, Event.fileLoad q ∉ (run args fs autoLoad migrate).events) ∧
    (∀ q, Event.diskWrite q ∉ (run args fs autoLoad migrate).events) := by
  have hv : (validateFilePath fs p).success = false := by
    unfold validateFilePath
    rw [if_pos hext]
  cases args with
  | nil => simp at harg
  | cons p0 rest =>
    have hp : p0 = p := by simpa using harg
    subst hp
    have hrun : run (p0 :: rest) fs autoLoad migrate = ⟨ExitKind.exited 1, fs, []⟩ := by
      rw [run_cons, if_neg (by simp [hv])]
    rw [hrun]
    exact ⟨rfl, by simp, by simp, by simp⟩

/-- Witness for C8: a markdown file. -/
theorem invalid_extension_short_circuits_witness :
    run [["notes.md"]] ⟨[(["notes.md"], "x")], []⟩ (fun _ => [])
        (fun s => Except.ok s) =
      ⟨ExitKind.exited 1, ⟨[(["notes.md"], "x")], []⟩, []⟩ :=
  (invalid_extension_short_circuits [["notes.md"]] ⟨[(["notes.md"], "x")], []⟩
    (fun _ => []) (fun s => Except.ok s) ["notes.md"] rfl (by decide)).1

/-- C9 counterexample: the target "/a.ts" is a directory, so it passes
validation and a tsconfig is found, but adding the target to the workspace
fails; the run ends in an unhandled fault, not in a handled, reported
ParseError outcome (there is no exit-1 error path for builder failures). -/
theorem parse_failure_not_handled_counterexample :
    (run [["a.ts"]] ⟨[(["tsconfig.json"], "x")], [["a.ts"]]⟩ (fun _ => [])
        (fun s => Except.ok s)).exit =
      ExitKind.unhandledFault enoentMessage ∧
    buildScopedProject ⟨[(["tsconfig.json"], "x")], [["a.ts"]]⟩ [] ["a.ts"] = none ∧
    (run [["a.ts"]] ⟨[(["tsconfig.json"], "x")], [["a.ts"]]⟩ (fun _ => [])
        (fun s => Except.ok s)).exit ≠ ExitKind.exited 1 ∧
    (run [["a.ts"]] ⟨[(["tsconfig.json"], "x")], [["a.ts"]]⟩ (fun _ => [])
        (fun s => Except.ok s)).exit ≠ ExitKind.exited 0 := by
  decide

/-- C9 amended: when the Scoped Project Builder fails on the target file
(the add/parse step throws), the exception propagates as an unhandled
fault — the pipeline catches only transform-time exceptions — and the
filesystem is untouched; there is no handled ParseError outcome. -/
theorem builder_failure_is_unhandled (args : List AbsPath) (fs : FS)
    (autoLoad : AbsPath → List AbsPath) (migrate : String → Except String String)
    (p cfg : AbsPath) (harg : args.head? = some p)
    (hv : (validateFilePath fs p).success = true)
    (hfind : findClosestTsConfig fs (dirname p) = some cfg)
    (hbuild : buildScopedProject fs (autoLoad cfg) p = none) :
    (run args fs autoLoad migrate).exit =
      ExitKind.unhandledFault enoentMessage ∧
    (run args fs autoLoad migrate).fs = fs ∧
    ∀ n, (run args fs autoLoad migrate).exit ≠ ExitKind.exited n := by
  cases args with
  | nil => simp at harg
  | cons p0 rest =>
    have hp : p0 = p := by simpa using harg
    subst hp
    rw [run_cons, if_pos hv, runMigration_build_none hfind hbuild]
    refine ⟨rfl, rfl, ?_⟩
    intro n
    simp

/-- Witness for C9 (amended) at the directory-target input. -/
theorem builder_failure_is_unhandled_witness :
    (run [["a.ts"]] ⟨[(["tsconfig.json"], "x")], [["a.ts"]]⟩ (fun _ => [])
        (fun s => Except.error s)).fs = ⟨[(["tsconfig.json"], "x")], [["a.ts"]]⟩ :=
  (builder_failure_is_unhandled [["a.ts"]] ⟨[(["tsconfig.json"], "x")], [["a.ts"]]⟩
    (fun _ => []) (fun s => Except.error s) ["a.ts"] ["tsconfig.json"] rfl
    (by decide) (by decide) (by decide)).2.1

/-- The run exits 0 exactly when persistence happened (a disk write is in
the trace). -/
theorem run_exit_zero_iff (args : List AbsPath) (fs : FS)
    (autoLoad : AbsPath → List AbsPath) (migrate : String → Except String String) :
    (run args fs autoLoad migrate).exit = ExitKind.exited 0 ↔
      ∃ q, Event.diskWrite q ∈ (run args fs autoLoad migrate).events := by
  cases args with
  | nil => rw [run_nil]; simp
  | cons p rest =>
    cases hv : (validateFilePath fs p).success with
    | false => rw [run_cons, if_neg (by simp [hv])]; simp
    | true =>
      rw [run_cons, if_pos hv]
      cases hfind : findClosestTsConfig fs (dirname p) with
      | none => rw [runMigration_config_none hfind]; simp
      | some cfg =>
        cases hbuild : buildScopedProject fs (autoLoad cfg) p with
        | none => rw [runMigration_build_none hfind hbuild]; simp
        | some prc =>
          obtain ⟨pr, c⟩ := prc
          cases hmig : migrate c with
          | error msg => rw [runMigration_migrate_error hfind hbuild hmig]; simp
          | ok nc =>
            rw [runMigration_migrate_ok hfind hbuild hmig]
            obtain ⟨hsf, _⟩ := buildScopedProject_sourceFiles hbuild
            constructor
            · intro _
              exact ⟨p, by simp [Project.setContent, hsf]⟩
            · intro _
              rfl

/-- C7: the exit code is 0 exactly when the whole pipeline succeeded (the
migrated file was persisted), and 1 in each failure case: missing
argument, failed validation, no configuration file in the ancestor chain,
or a raising transform. -/
theorem exit_code_spec (args : List AbsPath) (fs : FS)
    (autoLoad : AbsPath → List AbsPath) (migrate : String → Except String String) :
    ((run args fs autoLoad migrate).exit = ExitKind.exited 0 ↔
      ∃ q, Event.diskWrite q ∈ (run args fs autoLoad migrate).events) ∧
    (args.head? = none → (run args fs autoLoad migrate).exit = ExitKind.exited 1) ∧
    (∀ p, args.head? = some p → (validateFilePath fs p).success = false →
      (run args fs autoLoad migrate).exit = ExitKind.exited 1) ∧
    (∀ p, args.head? = some p → (validateFilePath fs p).success = true →
      findClosestTsConfig fs (dirname p) = none →
      (run args fs autoLoad migrate).exit = ExitKind.exited 1) ∧
    (∀ p cfg pr c msg, args.head? = some p → (validateFilePath fs p).success = true →
      findClosestTsConfig fs (dirname p) = some cfg →
      buildScopedProject fs (autoLoad cfg) p = some (pr, c) →
      migrate c = Except.error msg →
      (run args fs autoLoad migrate).exit = ExitKind.exited 1) := by
  refine ⟨run_exit_zero_iff args fs autoLoad migrate, ?_, ?_, ?_, ?_⟩
  · intro h
    cases args with
    | nil => rw [run_nil]
    | cons p rest => simp at h
  · intro p harg hv
    cases args with
    | nil => simp at harg
    | cons p0 rest =>
      have hp : p0 = p := by simpa using harg
      subst hp
      rw [run_cons, if_neg (by simp [hv])]
  · intro p harg hv hfind
    cases args with
    | nil => simp at harg
    | cons p0 rest =>
      have hp : p0 = p := by simpa using harg
      subst hp
      rw [run_cons, if_pos hv, runMigration_config_none hfind]
  · intro p cfg pr c msg harg hv hfind hbuild hmig
    cases args with
    | nil => simp at harg
    | cons p0 rest =>
      have hp : p0 = p := by simpa using harg
      subst hp
      rw [run_cons, if_pos hv, runMigration_migrate_error hfind hbuild hmig]

/-- Witness for C7: a successful end-to-end run exits 0, and a run with no
argument exits 1. -/
theorem exit_code_spec_witness :
    (run [["a.ts"]] ⟨[(["a.ts"], "old"), (["tsconfig.json"], "x")], []⟩ (fun _ => [])
        (fun s => Except.ok (s ++ "!"))).exit = ExitKind.exited 0 ∧
    (run [] ⟨[], []⟩ (fun _ => []) (fun s => Except.ok s)).exit = ExitKind.exited 1 :=
  ⟨(exit_code_spec [["a.ts"]] ⟨[(["a.ts"], "old"), (["tsconfig.json"], "x")], []⟩
      (fun _ => []) (fun s => Except.ok (s ++ "!"))).1.mpr ⟨["a.ts"], by decide⟩,
   (exit_code_spec [] ⟨[], []⟩ (fun _ => []) (fun s => Except.ok s)).2.1 rfl⟩

end ZodMigrate
